import Mathlib

/-! The `validate.js` example plugin.

A shallow embedding of `src/examples/validate.js`: the `Plugin` function, the
handler `cmd_create` with its promise chain, and the stub `createService`.

The file calls three things it does not define: `mergeValidate.validate`
(from the external merge-validate package), `getValidateSchema` and `create`.
They are parameters of the model (`Env`).  Every call the code makes is
recorded, in order, in a trace of `Event`s, so that statements such as
"`done` is called once" or "`createService` is never called" are statements
about that trace.
-/

namespace SenecaValidate

/-! ## Values -/

/-- JavaScript data values: the arguments, results and errors that travel
through the handler. -/
inductive JSValue where
  | undefined
  | null
  | bool (b : Bool)
  | num (n : Int)
  | str (s : String)
  | arr (items : List JSValue)
  | obj (fields : List (String × JSValue))

/-- The state of a promise once the chain has run to quiescence. -/
inductive PromiseState where
  | pending
  | fulfilled (value : JSValue)
  | rejected (reason : JSValue)

/-- The effect of calling a promise's `resolve` function: only the first
settlement counts. -/
def PromiseState.resolve (p : PromiseState) (v : JSValue) : PromiseState :=
  match p with
  | .pending => .fulfilled v
  | s => s

/-- The effect of calling a promise's `reject` function: only the first
settlement counts. -/
def PromiseState.reject (p : PromiseState) (e : JSValue) : PromiseState :=
  match p with
  | .pending => .rejected e
  | s => s

/-- Whether the promise has left the pending state. -/
def PromiseState.isSettled : PromiseState → Bool
  | .pending => false
  | _ => true

/-- The body of a promise executor: it acts on the promise under
construction, and `throw ()` stands for the `return` statement, which ends
the body. -/
abbrev ExecutorM := ExceptT Unit (StateM PromiseState)

/-- The call `resolve(v)` inside an executor. -/
def callResolve (v : JSValue) : ExecutorM Unit :=
  modify fun p => p.resolve v

/-- The call `reject(e)` inside an executor. -/
def callReject (e : JSValue) : ExecutorM Unit :=
  modify fun p => p.reject e

/-- The statement `return` inside an executor. -/
def jsReturn : ExecutorM Unit :=
  throw ()

/-- The expression `new Promise(executor)`: the executor runs at once on a
pending promise. -/
def newPromise (executor : ExecutorM Unit) : PromiseState :=
  (executor.run.run PromiseState.pending).2

/-- How a call of a JavaScript function ends: it returns a plain value, it
returns a promise, or it throws. -/
inductive Completion where
  | returns (v : JSValue)
  | returnsPromise (p : PromiseState)
  | throws (e : JSValue)

/-- The state of the promise made by `.then(f)` or `.catch(f)` after the
handler `f` has completed: a returned value fulfils it, a returned promise is
adopted, a thrown exception rejects it. -/
def Completion.settle : Completion → PromiseState
  | .returns v => .fulfilled v
  | .returnsPromise p => p
  | .throws e => .rejected e

/-! ## Calls and traces -/

/-- The two functions declared inside `Plugin`. -/
inductive FnRef where
  | cmd_create
  | createService
  deriving DecidableEq

/-- One call made while the plugin code runs. -/
inductive Event where
  /-- The call `require(pkg)`. -/
  | require (pkg : String)
  /-- The call `MergeValidate(seneca)`. -/
  | mergeValidateFactory
  /-- The call `seneca.add(pattern, handler)`. -/
  | add (pattern : JSValue) (handler : FnRef)
  /-- The body of a function declared in `Plugin` starts to run. -/
  | enter (fn : FnRef) (arg : JSValue)
  /-- The call `getValidateSchema()`. -/
  | getValidateSchema
  /-- The call `mergeValidate.validate(request)`. -/
  | validate (request : JSValue)
  /-- The call `create(arg)`. -/
  | create (arg : JSValue)
  /-- The call `done(err, result)`. -/
  | done (err result : JSValue)

/-- Code that appends to the trace of calls. -/
abbrev Run := StateM (List Event)

/-- Record one call. -/
def emit (ev : Event) : Run Unit :=
  modify fun tr => tr ++ [ev]

/-- The trace a computation produces from an empty history. -/
def Run.trace {α : Type} (r : Run α) : List Event :=
  (r.run []).2

/-- The value a computation produces from an empty history. -/
def Run.value {α : Type} (r : Run α) : α :=
  (r.run []).1

/-- Whether an event is a call of `done`. -/
def Event.isDone : Event → Bool
  | .done _ _ => true
  | _ => false

/-- Whether an event is a call of `mergeValidate.validate`. -/
def Event.isValidate : Event → Bool
  | .validate _ => true
  | _ => false

/-- Whether an event is a call of `create`. -/
def Event.isCreate : Event → Bool
  | .create _ => true
  | _ => false

/-- Whether an event is a call of `seneca.add`. -/
def Event.isAdd : Event → Bool
  | .add _ _ => true
  | _ => false

/-- Whether an event is the start of `createService`. -/
def Event.isCreateService : Event → Bool
  | .enter .createService _ => true
  | _ => false

/-- The calls of `done` in a trace, in order. -/
def doneCalls (tr : List Event) : List Event :=
  tr.filter Event.isDone

/-- The calls of `mergeValidate.validate` in a trace, in order. -/
def validateCalls (tr : List Event) : List Event :=
  tr.filter Event.isValidate

/-- The calls of `create` in a trace, in order. -/
def createCalls (tr : List Event) : List Event :=
  tr.filter Event.isCreate

/-! ## What the file does not define -/

/-- The names `validate.js` uses without defining them. `validate` is
`mergeValidate.validate`, which returns a promise; `getValidateSchema` returns
the schema; `create` is the function passed to the first `.then`. -/
structure Env where
  validate : JSValue → PromiseState
  getValidateSchema : Unit → JSValue
  create : JSValue → Completion

/-- The completion callback `done(err, result)`. It is given the number of
calls of `done` made before this one, so that a callback may behave
differently from call to call; like any function it returns a plain value,
returns a promise, or throws. -/
abbrev Callback := Nat → JSValue → JSValue → Completion

/-- The call `done(err, result)`, as the body of the arrow functions
`result => done(null, result)` and `err => done(null, err)`: what `done`
returns or throws is what the arrow function returns or throws. -/
def callDone (done : Callback) (err result : JSValue) : Run Completion := do
  let earlier := (doneCalls (← get)).length
  emit (.done err result)
  pure (done earlier err result)

/-- The method `p.then(onFulfilled)`: the handler runs only on a fulfilled
promise; a rejected or pending promise passes through. -/
def PromiseState.then_ (p : PromiseState) (onFulfilled : JSValue → Run Completion) :
    Run PromiseState :=
  match p with
  | .fulfilled v => do
    let c ← onFulfilled v
    pure c.settle
  | .rejected e => pure (.rejected e)
  | .pending => pure .pending

/-- The method `p.catch(onRejected)`: the handler runs only on a rejected
promise; a fulfilled or pending promise passes through. -/
def PromiseState.catch_ (p : PromiseState) (onRejected : JSValue → Run Completion) :
    Run PromiseState :=
  match p with
  | .rejected e => do
    let c ← onRejected e
    pure c.settle
  | .fulfilled v => pure (.fulfilled v)
  | .pending => pure .pending

/-! ## The code of `validate.js` -/

/-- The constant `PICK_FIELDS`. -/
def PICK_FIELDS : JSValue :=
  .arr [.str "field"]

/-- The object literal passed to `mergeValidate.validate`. -/
def validateRequest (env : Env) (args : JSValue) : JSValue :=
  .obj [("args", args),
        ("pick", PICK_FIELDS),
        ("schema", env.getValidateSchema ()),
        ("options", .obj [("abortEarly", .bool false)])]

/-- The handler `cmd_create(args, done)`. The source function returns
`undefined`; the model returns the state of the last promise of the chain,
which the source discards. -/
def cmd_create (env : Env) (args : JSValue) (done : Callback) : Run PromiseState := do
  emit (.enter .cmd_create args)
  emit .getValidateSchema
  let request := validateRequest env args
  emit (.validate request)
  let validated := env.validate request
  let created ← validated.then_ fun v => do
    emit (.create v)
    pure (env.create v)
  let delivered ← created.then_ fun result => callDone done .null result
  delivered.catch_ fun err => callDone done .null err

/-- The rejection value of `createService`. -/
def createServiceError : JSValue :=
  .obj [("status", .bool false), ("message", .str "Error")]

/-- The value in the second, unreachable `return` of `createService`. -/
def createServiceSuccess : JSValue :=
  .obj [("status", .bool true), ("result", .obj [])]

/-- The function `createService(params)`. -/
def createService (params : JSValue) : Run PromiseState := do
  emit (.enter .createService params)
  pure <| newPromise do
    callReject createServiceError
    jsReturn
    callResolve createServiceSuccess
    jsReturn

/-- The pattern registered by `Plugin`. -/
def createPattern : JSValue :=
  .obj [("role", .str "plugin"), ("cmd", .str "create")]

/-- A seneca instance, as far as `Plugin` acts on it: the registered patterns
with their handlers. -/
structure Seneca where
  patterns : List (JSValue × FnRef)

/-- The method `seneca.add(pattern, handler)`. -/
def Seneca.add (seneca : Seneca) (pattern : JSValue) (handler : FnRef) : Run Seneca := do
  emit (.add pattern handler)
  pure { patterns := seneca.patterns ++ [(pattern, handler)] }

/-- The function `Plugin`, run with `this` bound to `seneca`. -/
def Plugin (seneca : Seneca) : Run Seneca := do
  emit (.require "btime-merge-validate-package")
  emit .mergeValidateFactory
  seneca.add createPattern .cmd_create

/-- The calls that follow the call of `mergeValidate.validate`, by the
outcome of validation, of `create` and of the first call of `done`: a first
call of `done` that throws, or returns a rejected promise, rejects the promise
the `catch` handler is attached to. -/
def chainCalls (env : Env) (args : JSValue) (done : Callback) : List Event :=
  match env.validate (validateRequest env args) with
  | .pending => []
  | .rejected e => [.done .null e]
  | .fulfilled v =>
    Event.create v ::
      match (env.create v).settle with
      | .pending => []
      | .rejected e => [.done .null e]
      | .fulfilled r =>
        Event.done .null r ::
          match (done 0 .null r).settle with
          | .rejected x => [.done .null x]
          | _ => []

/-- Reading the property `key` of a value: `undefined` when it is absent. -/
def JSValue.field (o : JSValue) (key : String) : JSValue :=
  match o with
  | .obj fields => ((fields.find? fun kv => kv.1 == key).map Prod.snd).getD .undefined
  | _ => .undefined

/-! ## Sample inputs -/

/-- A sample argument object, `{ field: 'value' }`. -/
def sampleArgs : JSValue :=
  .obj [("field", .str "value")]

/-- A sample schema. -/
def sampleSchema : JSValue :=
  .obj [("field", .str "string")]

/-- A callback that always returns `undefined`. -/
def doneOk : Callback :=
  fun _ _ _ => .returns .undefined

/-- A callback that throws `'boom'` on its first call and returns afterwards. -/
def doneThrowsFirst : Callback :=
  fun earlier _ _ => if earlier = 0 then .throws (.str "boom") else .returns .undefined

/-- A callback that never throws and returns a promise rejected with `'late'`,
as `() => Promise.reject('late')` does. -/
def doneRejectsLate : Callback :=
  fun _ _ _ => .returnsPromise (.rejected (.str "late"))

/-- Validation resolves with the arguments it was given; `create` behaves as
`createService` does and returns a rejected promise. -/
def envCreateRejects : Env where
  validate := fun request => .fulfilled (request.field "args")
  getValidateSchema := fun _ => sampleSchema
  create := fun _ => .returnsPromise (.rejected createServiceError)

/-- Validation resolves with the arguments it was given; `create` returns a
promise fulfilled with `{ status: true, result: {} }`. -/
def envCreateResolves : Env where
  validate := fun request => .fulfilled (request.field "args")
  getValidateSchema := fun _ => sampleSchema
  create := fun _ => .returnsPromise (.fulfilled createServiceSuccess)

/-- Validation resolves with the arguments it was given; `create` returns a
promise that never settles. -/
def envCreateHangs : Env where
  validate := fun request => .fulfilled (request.field "args")
  getValidateSchema := fun _ => sampleSchema
  create := fun _ => .returnsPromise .pending

/-- Validation rejects with `'invalid'`. -/
def envValidateRejects : Env where
  validate := fun _ => .rejected (.str "invalid")
  getValidateSchema := fun _ => sampleSchema
  create := fun _ => .returnsPromise (.fulfilled createServiceSuccess)

/-! ## How the primitives act on the trace -/

theorem emit_run (ev : Event) (tr : List Event) : (emit ev).run tr = ((), tr ++ [ev]) := rfl

theorem callDone_run (done : Callback) (a b : JSValue) (tr : List Event) :
    (callDone done a b).run tr =
      (done (doneCalls tr).length a b, tr ++ [.done a b]) := rfl

theorem then_run (p : PromiseState) (f : JSValue → Run Completion) (tr : List Event) :
    (p.then_ f).run tr =
      match p with
      | .fulfilled v => (((f v).run tr).1.settle, ((f v).run tr).2)
      | .rejected e => (.rejected e, tr)
      | .pending => (.pending, tr) := by
  cases p <;> rfl

theorem catch_run (p : PromiseState) (f : JSValue → Run Completion) (tr : List Event) :
    (p.catch_ f).run tr =
      match p with
      | .rejected e => (((f e).run tr).1.settle, ((f e).run tr).2)
      | .fulfilled v => (.fulfilled v, tr)
      | .pending => (.pending, tr) := by
  cases p <;> rfl

/-- The complete trace of one run of `cmd_create`. -/
theorem cmd_create_trace (env : Env) (args : JSValue) (done : Callback) :
    (cmd_create env args done).trace =
      [.enter .cmd_create args, .getValidateSchema, .validate (validateRequest env args)] ++
        chainCalls env args done := by
  simp only [cmd_create, Run.trace, StateT.run_bind, emit_run, Id.bind_eq, Id.pure_eq, then_run,
    catch_run, callDone_run, StateT.run_pure, chainCalls]
  cases hv : env.validate (validateRequest env args) with
  | pending => rfl
  | rejected e => rfl
  | fulfilled v =>
    cases hc : (env.create v).settle with
    | pending => simp [hc]
    | rejected e => simp [hc]
    | fulfilled r =>
      cases hd : (done 0 .null r).settle with
      | pending =>
        simp only [hc]
        simp [hd, doneCalls, Event.isDone]
      | fulfilled w =>
        simp only [hc]
        simp [hd, doneCalls, Event.isDone]
      | rejected x =>
        simp only [hc]
        simp [hd, doneCalls, Event.isDone]

/-- The calls of `done` in one run of `cmd_create`. -/
theorem cmd_create_doneCalls (env : Env) (args : JSValue) (done : Callback) :
    doneCalls (cmd_create env args done).trace =
      match env.validate (validateRequest env args) with
      | .pending => []
      | .rejected e => [.done .null e]
      | .fulfilled v =>
        match (env.create v).settle with
        | .pending => []
        | .rejected e => [.done .null e]
        | .fulfilled r =>
          Event.done .null r ::
            match (done 0 .null r).settle with
            | .rejected x => [.done .null x]
            | _ => [] := by
  rw [cmd_create_trace]
  unfold chainCalls
  cases env.validate (validateRequest env args) with
  | pending => rfl
  | rejected e => rfl
  | fulfilled v =>
    dsimp only
    cases (env.create v).settle with
    | pending => rfl
    | rejected e => rfl
    | fulfilled r =>
      dsimp only
      cases (done 0 .null r).settle with
      | pending => rfl
      | fulfilled w => rfl
      | rejected x => rfl

/-- The calls of `create` in one run of `cmd_create`. -/
theorem cmd_create_createCalls (env : Env) (args : JSValue) (done : Callback) :
    createCalls (cmd_create env args done).trace =
      match env.validate (validateRequest env args) with
      | .fulfilled v => [.create v]
      | _ => [] := by
  rw [cmd_create_trace]
  unfold chainCalls
  cases env.validate (validateRequest env args) with
  | pending => rfl
  | rejected e => rfl
  | fulfilled v =>
    dsimp only
    cases (env.create v).settle with
    | pending => rfl
    | rejected e => rfl
    | fulfilled r =>
      dsimp only
      cases (done 0 .null r).settle with
      | pending => rfl
      | fulfilled w => rfl
      | rejected x => rfl

/-- Were the first `.then` given `createService`, whose promise is always
rejected, `done` would receive the rejection value whenever validation
resolves, and never a creation result. -/
theorem cmd_create_with_createService (validate : JSValue → PromiseState)
    (schema : Unit → JSValue) (args : JSValue) (done : Callback) :
    doneCalls (cmd_create
        { validate := validate, getValidateSchema := schema,
          create := fun params => .returnsPromise (createService params).value }
        args done).trace =
      match validate (validateRequest
        { validate := validate, getValidateSchema := schema,
          create := fun params => .returnsPromise (createService params).value } args) with
      | .pending => []
      | .rejected e => [.done .null e]
      | .fulfilled _ => [.done .null createServiceError] := by
  rw [cmd_create_doneCalls]
  simp only []
  cases validate _ <;> rfl

/-! ## The handler `cmd_create` -/

/-- C1: whenever the validation call or the creation call rejects with a
value `e`, `cmd_create` calls `done(null, e)`; and the first argument of every
call of `done` made by `cmd_create` is `null`. -/
theorem cmd_create_rejection_in_result_position (env : Env) (args : JSValue) (done : Callback) :
    (∀ e, env.validate (validateRequest env args) = .rejected e →
        Event.done .null e ∈ (cmd_create env args done).trace) ∧
    (∀ v e, env.validate (validateRequest env args) = .fulfilled v →
        (env.create v).settle = .rejected e →
        Event.done .null e ∈ (cmd_create env args done).trace) ∧
    (∀ err result, Event.done err result ∈ (cmd_create env args done).trace →
        err = .null) := by
  rw [cmd_create_trace]
  unfold chainCalls
  refine ⟨?_, ?_, ?_⟩
  · intro e hv
    simp [hv]
  · intro v e hv hc
    simp [hv, hc]
  · intro err result
    cases env.validate (validateRequest env args) with
    | pending => simp
    | rejected e =>
      intro h
      simp at h
      exact h.1
    | fulfilled v =>
      dsimp only
      cases (env.create v).settle with
      | pending => simp
      | rejected e =>
        intro h
        simp at h
        exact h.1
      | fulfilled r =>
        dsimp only
        cases (done 0 .null r).settle with
        | pending =>
          intro h
          simp at h
          exact h.1
        | fulfilled w =>
          intro h
          simp at h
          exact h.1
        | rejected x =>
          intro h
          simp at h
          rcases h with h | h <;> exact h.1

/-- C1 at sample inputs: validation rejects with `'invalid'`, which reaches
`done` as its second argument; `create` rejects with the error object, which
reaches `done` as its second argument. -/
theorem cmd_create_rejection_in_result_position_witness :
    Event.done .null (.str "invalid") ∈ (cmd_create envValidateRejects sampleArgs doneOk).trace ∧
    Event.done .null createServiceError ∈
      (cmd_create envCreateRejects sampleArgs doneOk).trace :=
  ⟨(cmd_create_rejection_in_result_position envValidateRejects sampleArgs doneOk).1
      (.str "invalid") rfl,
   (cmd_create_rejection_in_result_position envCreateRejects sampleArgs doneOk).2.1
      sampleArgs createServiceError rfl rfl⟩

/-- C2: with validation resolving and `create` bound to a function whose
promise is fulfilled with `{ status: true, result: {} }`, the success
continuation runs and `done` receives that creation result. -/
theorem cmd_create_success_continuation_reached :
    envCreateResolves.validate (validateRequest envCreateResolves sampleArgs) =
      .fulfilled sampleArgs ∧
    doneCalls (cmd_create envCreateResolves sampleArgs doneOk).trace =
      [.done .null (.obj [("status", .bool true), ("result", .obj [])])] ∧
    (cmd_create envCreateResolves sampleArgs doneOk).trace.filter Event.isCreateService = [] :=
  ⟨rfl, rfl, rfl⟩

/-- C3 as stated fails, in two ways. Validation settles and `done` never
throws, yet `create` returns a promise that never settles and `done` is not
called at all; and validation and `create` resolve while `done`, without
throwing, returns a promise rejected with `'late'`, and `done` is called
twice. -/
theorem cmd_create_done_not_exactly_once :
    ((∀ earlier err result x, doneOk earlier err result ≠ .throws x) ∧
      (envCreateHangs.validate (validateRequest envCreateHangs sampleArgs)).isSettled = true ∧
      doneCalls (cmd_create envCreateHangs sampleArgs doneOk).trace = []) ∧
    ((∀ earlier err result x, doneRejectsLate earlier err result ≠ .throws x) ∧
      (envCreateResolves.validate
        (validateRequest envCreateResolves sampleArgs)).isSettled = true ∧
      doneCalls (cmd_create envCreateResolves sampleArgs doneRejectsLate).trace =
        [.done .null createServiceSuccess, .done .null (.str "late")]) :=
  ⟨⟨fun _ _ _ _ h => Completion.noConfusion h, rfl, rfl⟩,
   ⟨fun _ _ _ _ h => Completion.noConfusion h, rfl, rfl⟩⟩

/-- C3, amended: when `done` neither throws nor returns a promise that
rejects, the validation promise settles and, if validation resolves, the
promise made from the call of `create` settles too, `cmd_create` calls `done`
exactly once, as `done(null, x)`, where `x` is the validation error, the
creation result or the creation error. -/
theorem cmd_create_done_called_once (env : Env) (args : JSValue) (done : Callback)
    (hdone : ∀ earlier err result x, (done earlier err result).settle ≠ .rejected x)
    (hvalid : (env.validate (validateRequest env args)).isSettled = true)
    (hcreate : ∀ v, env.validate (validateRequest env args) = .fulfilled v →
      (env.create v).settle.isSettled = true) :
    ∃ x, doneCalls (cmd_create env args done).trace = [.done .null x] ∧
      (env.validate (validateRequest env args) = .rejected x ∨
        ∃ v, env.validate (validateRequest env args) = .fulfilled v ∧
          ((env.create v).settle = .fulfilled x ∨ (env.create v).settle = .rejected x)) := by
  rw [cmd_create_doneCalls]
  cases hv : env.validate (validateRequest env args) with
  | pending => simp [hv, PromiseState.isSettled] at hvalid
  | rejected e => exact ⟨e, rfl, Or.inl rfl⟩
  | fulfilled v =>
    have hs := hcreate v hv
    dsimp only
    cases hc : (env.create v).settle with
    | pending => simp [hc, PromiseState.isSettled] at hs
    | rejected e => exact ⟨e, rfl, Or.inr ⟨v, rfl, Or.inr hc⟩⟩
    | fulfilled r =>
      refine ⟨r, ?_, Or.inr ⟨v, rfl, Or.inl hc⟩⟩
      dsimp only
      cases hd : (done 0 .null r).settle with
      | pending => rfl
      | fulfilled w => rfl
      | rejected x => exact absurd hd (hdone 0 .null r x)

/-- C3, amended, at sample inputs: validation and `create` resolve, `done`
returns `undefined`, and `done` is called once, with the creation result. -/
theorem cmd_create_done_called_once_witness :
    ∃ x, doneCalls (cmd_create envCreateResolves sampleArgs doneOk).trace = [.done .null x] ∧
      (envCreateResolves.validate (validateRequest envCreateResolves sampleArgs) = .rejected x ∨
        ∃ v, envCreateResolves.validate (validateRequest envCreateResolves sampleArgs) =
            .fulfilled v ∧
          ((envCreateResolves.create v).settle = .fulfilled x ∨
            (envCreateResolves.create v).settle = .rejected x)) :=
  cmd_create_done_called_once envCreateResolves sampleArgs doneOk
    (fun _ _ _ _ h => PromiseState.noConfusion h) rfl (fun _ _ => rfl)

/-- C4: `cmd_create` calls `mergeValidate.validate` exactly once, with the
request `{ args, pick: ['field'], schema: getValidateSchema(), options:
{ abortEarly: false } }`: `args` is the handler's argument unchanged, and the
other three fields are the same for all arguments. -/
theorem cmd_create_validate_request (env : Env) (args : JSValue) (done : Callback) :
    validateCalls (cmd_create env args done).trace =
      [.validate (.obj [("args", args),
                        ("pick", .arr [.str "field"]),
                        ("schema", env.getValidateSchema ()),
                        ("options", .obj [("abortEarly", .bool false)])])] ∧
    (validateRequest env args).field "args" = args ∧
    (∀ other : JSValue,
      (validateRequest env args).field "pick" = (validateRequest env other).field "pick" ∧
      (validateRequest env args).field "schema" = (validateRequest env other).field "schema" ∧
      (validateRequest env args).field "options" =
        (validateRequest env other).field "options") := by
  refine ⟨?_, rfl, fun _ => ⟨rfl, rfl, rfl⟩⟩
  rw [cmd_create_trace]
  unfold chainCalls
  cases env.validate (validateRequest env args) with
  | pending => rfl
  | rejected e => rfl
  | fulfilled v =>
    dsimp only
    cases (env.create v).settle with
    | pending => rfl
    | rejected e => rfl
    | fulfilled r =>
      dsimp only
      cases (done 0 .null r).settle with
      | pending => rfl
      | fulfilled w => rfl
      | rejected x => rfl

/-! ## Registration and the stub -/

/-- C5: running `Plugin` calls `seneca.add` exactly once, with the pattern
`{ role: 'plugin', cmd: 'create' }` and the handler `cmd_create`; the instance
gains that one registration, and no function declared in `Plugin` starts to
run during registration. -/
theorem Plugin_registers_one_pattern (seneca : Seneca) :
    (Plugin seneca).trace.filter Event.isAdd =
      [.add (.obj [("role", .str "plugin"), ("cmd", .str "create")]) .cmd_create] ∧
    (Plugin seneca).value.patterns =
      seneca.patterns ++
        [(.obj [("role", .str "plugin"), ("cmd", .str "create")], .cmd_create)] ∧
    (Plugin seneca).trace =
      [.require "btime-merge-validate-package", .mergeValidateFactory,
       .add (.obj [("role", .str "plugin"), ("cmd", .str "create")]) .cmd_create] ∧
    (∀ fn arg, Event.enter fn arg ∉ (Plugin seneca).trace) := by
  refine ⟨rfl, rfl, rfl, ?_⟩
  intro fn arg h
  have ht : (Plugin seneca).trace =
      [.require "btime-merge-validate-package", .mergeValidateFactory,
       .add createPattern .cmd_create] := rfl
  rw [ht] at h
  simp at h

/-- C6: for every `params`, the promise returned by `createService` is
rejected with `{ status: false, message: 'Error' }`, it is not fulfilled with
`{ status: true, result: {} }`, and it is the same for all `params`. -/
theorem createService_always_rejects (params : JSValue) :
    (createService params).value =
      .rejected (.obj [("status", .bool false), ("message", .str "Error")]) ∧
    (createService params).value ≠
      .fulfilled (.obj [("status", .bool true), ("result", .obj [])]) ∧
    (∀ other : JSValue, (createService params).value = (createService other).value) := by
  have h : (createService params).value = .rejected createServiceError := rfl
  refine ⟨rfl, ?_, fun _ => rfl⟩
  rw [h]
  intro hne
  cases hne

/-- C7: neither `Plugin` nor `cmd_create` ever starts `createService`: no
trace of either contains a call of it, whatever the instance, the arguments,
the callback and the outcomes of validation and of `create`. -/
theorem createService_never_called (seneca : Seneca) (env : Env) (args : JSValue)
    (done : Callback) :
    (∀ params, Event.enter .createService params ∉ (Plugin seneca).trace) ∧
    (∀ params, Event.enter .createService params ∉ (cmd_create env args done).trace) := by
  constructor
  · intro params h
    have ht : (Plugin seneca).trace =
        [.require "btime-merge-validate-package", .mergeValidateFactory,
         .add createPattern .cmd_create] := rfl
    rw [ht] at h
    simp at h
  · intro params
    rw [cmd_create_trace]
    unfold chainCalls
    cases env.validate (validateRequest env args) with
    | pending => simp
    | rejected e => simp
    | fulfilled v =>
      dsimp only
      cases (env.create v).settle with
      | pending => simp
      | rejected e => simp
      | fulfilled r =>
        dsimp only
        cases (done 0 .null r).settle with
        | pending => simp
        | fulfilled w => simp
        | rejected x => simp

/-! ## Order of the steps -/

/-- C8: the calls of one run come in the order validate, create, done; when
validation rejects with `e`, `create` is not called and `done` is called as
`done(null, e)`; `create` is called only when validation resolves, and then
once, with the resolved value. -/
theorem cmd_create_step_order (env : Env) (args : JSValue) (done : Callback) :
    (cmd_create env args done).trace =
      [.enter .cmd_create args, .getValidateSchema, .validate (validateRequest env args)] ++
        createCalls (cmd_create env args done).trace ++
        doneCalls (cmd_create env args done).trace ∧
    (∀ e, env.validate (validateRequest env args) = .rejected e →
      createCalls (cmd_create env args done).trace = [] ∧
      doneCalls (cmd_create env args done).trace = [.done .null e]) ∧
    (∀ v, env.validate (validateRequest env args) = .fulfilled v →
      createCalls (cmd_create env args done).trace = [.create v]) ∧
    (∀ x, Event.create x ∈ (cmd_create env args done).trace →
      env.validate (validateRequest env args) = .fulfilled x) := by
  refine ⟨?_, ?_, ?_, ?_⟩
  · rw [cmd_create_createCalls, cmd_create_doneCalls, cmd_create_trace]
    unfold chainCalls
    cases env.validate (validateRequest env args) with
    | pending => rfl
    | rejected e => rfl
    | fulfilled v =>
      dsimp only
      cases (env.create v).settle with
      | pending => rfl
      | rejected e => rfl
      | fulfilled r =>
        dsimp only
        cases (done 0 .null r).settle with
        | pending => rfl
        | fulfilled w => rfl
        | rejected x => rfl
  · intro e hv
    rw [cmd_create_createCalls, cmd_create_doneCalls, hv]
    exact ⟨rfl, rfl⟩
  · intro v hv
    rw [cmd_create_createCalls, hv]
  · intro x
    rw [cmd_create_trace]
    unfold chainCalls
    cases env.validate (validateRequest env args) with
    | pending => simp
    | rejected e => simp
    | fulfilled v =>
      dsimp only
      cases (env.create v).settle with
      | pending =>
        intro h
        simp at h
        rw [h]
      | rejected e =>
        intro h
        simp at h
        rw [h]
      | fulfilled r =>
        dsimp only
        cases (done 0 .null r).settle with
        | pending =>
          intro h
          simp at h
          rw [h]
        | fulfilled w =>
          intro h
          simp at h
          rw [h]
        | rejected y =>
          intro h
          simp at h
          rw [h]

/-- C8 at sample inputs: validation rejects with `'invalid'`, so `create` is
not called and `done` is called as `done(null, 'invalid')`; validation
resolves with the arguments, so `create` is called with them. -/
theorem cmd_create_step_order_witness :
    (createCalls (cmd_create envValidateRejects sampleArgs doneOk).trace = [] ∧
      doneCalls (cmd_create envValidateRejects sampleArgs doneOk).trace =
        [.done .null (.str "invalid")]) ∧
    createCalls (cmd_create envCreateRejects sampleArgs doneOk).trace =
      [.create sampleArgs] :=
  ⟨(cmd_create_step_order envValidateRejects sampleArgs doneOk).2.1 (.str "invalid") rfl,
   (cmd_create_step_order envCreateRejects sampleArgs doneOk).2.2.1 sampleArgs rfl⟩

/-- C9: the `catch` handler covers the success continuation. There are a
`create` that resolves and a `done` that throws `x` on its first call for
which `done` is called a second time, as `done(null, x)`; and in every run
where `done` is called at most once, either the success continuation is not
reached or the call of `done` in it does not throw (nor does it return a
rejected promise). -/
theorem cmd_create_catch_covers_success (env : Env) (args : JSValue) (done : Callback) :
    (∃ (env0 : Env) (args0 : JSValue) (done0 : Callback) (v r x : JSValue),
      env0.validate (validateRequest env0 args0) = .fulfilled v ∧
      (env0.create v).settle = .fulfilled r ∧
      done0 0 .null r = .throws x ∧
      doneCalls (cmd_create env0 args0 done0).trace = [.done .null r, .done .null x]) ∧
    ((doneCalls (cmd_create env args done).trace).length ≤ 1 →
      (¬ ∃ v r, env.validate (validateRequest env args) = .fulfilled v ∧
          (env.create v).settle = .fulfilled r) ∨
      (∀ v r, env.validate (validateRequest env args) = .fulfilled v →
          (env.create v).settle = .fulfilled r →
          (∀ x, done 0 .null r ≠ .throws x) ∧
          (∀ x, (done 0 .null r).settle ≠ .rejected x))) := by
  constructor
  · exact ⟨envCreateResolves, sampleArgs, doneThrowsFirst, sampleArgs, createServiceSuccess,
      .str "boom", rfl, rfl, rfl, rfl⟩
  · intro hlen
    right
    intro v r hv hc
    rw [cmd_create_doneCalls, hv] at hlen
    dsimp only at hlen
    rw [hc] at hlen
    dsimp only at hlen
    have hrej : ∀ x, (done 0 .null r).settle ≠ .rejected x := by
      intro x hd
      rw [hd] at hlen
      simp at hlen
    refine ⟨?_, hrej⟩
    intro x hx
    exact hrej x (by rw [hx]; rfl)

/-- C9 at sample inputs: `create` rejects, `done` is called once, and so the
success continuation is not reached. -/
theorem cmd_create_catch_covers_success_witness :
    (¬ ∃ v r, envCreateRejects.validate (validateRequest envCreateRejects sampleArgs) =
          .fulfilled v ∧ (envCreateRejects.create v).settle = .fulfilled r) ∨
      (∀ v r, envCreateRejects.validate (validateRequest envCreateRejects sampleArgs) =
          .fulfilled v →
        (envCreateRejects.create v).settle = .fulfilled r →
        (∀ x, doneThrowsFirst 0 .null r ≠ .throws x) ∧
        (∀ x, (doneThrowsFirst 0 .null r).settle ≠ .rejected x)) :=
  (cmd_create_catch_covers_success envCreateRejects sampleArgs doneThrowsFirst).2
    (by decide)

end SenecaValidate
